import Mathlib

/-!
Shallow embedding of the async-context subsystem of `workerd/jsg`
(`src/workerd/jsg/async-context.h`, `src/workerd/jsg/async-context.c++`).

Modelling conventions:
* A `StorageKey` is identified by a `Nat`; key identity equality is `Nat`
  equality.  The shared "dead" flag of the keys (set by `StorageKey::reset`)
  is modelled as a predicate `dead : Nat → Bool` passed to every operation
  that consults `key->isDead()`.
* A stored `Value` is modelled as a `Nat` (values are opaque to this
  subsystem; only identity of the reference matters).
* A frame's `Storage` (`kj::Table<StorageEntry, HashIndex>` keyed by key
  identity) is modelled as an association list `List (Nat × Nat)` in table
  order.
* `AsyncContextFrame` objects are identified by `Nat` ids; the per-isolate
  state (`IsolateBase`) carries the frame stack (front = top), the lazily
  created root frame, and a counter used to allocate fresh frame ids.
* A fatal assertion (`KJ_ASSERT` / debug `KJ_DASSERT`) is modelled as the
  operation returning `none`; `some` is a run that does not trap.
-/

namespace Workerd

/-- A frame's storage: association list of (storage key id, value), in
table order, at most one entry per key. -/
abbrev Storage := List (Nat × Nat)

/-- Lookup of the entry for a key in a storage table
(`storage.find(key)` followed by projecting `entry.value`). -/
def Storage.findVal (s : Storage) (k : Nat) : Option Nat :=
  (s.find? (fun e => e.1 == k)).map (fun e => e.2)

/-- `storage.eraseAll([](auto& entry) \x7b return entry.key->isDead(); \x7d)`:
remove every entry whose key is dead. -/
def Storage.eraseDead (dead : Nat → Bool) (s : Storage) : Storage :=
  s.filter (fun e => !dead e.1)

/-- `storage.upsert(entry, [](existing, row) \x7b existing.value = row.value; \x7d)`:
replace the value of the row with a matching key, inserting the entry when
no row matches. -/
def Storage.upsert : Storage → Nat × Nat → Storage
  | [], e => [e]
  | x :: xs, e => if x.1 == e.1 then (x.1, e.2) :: xs else x :: Storage.upsert xs e

/-- Per-isolate async-context state of `IsolateBase`: the frame stack
(`asyncFrameStack`, front = current), the lazily created root frame
(`rootAsyncFrame`), and a counter allocating fresh frame identities. -/
structure IsolateBase where
  asyncFrameStack : List Nat
  rootAsyncFrame : Option Nat
  nextFrameId : Nat
deriving DecidableEq

/-- `IsolateBase::pushAsyncFrame`: `asyncFrameStack.push_front(&next)`. -/
def IsolateBase.pushAsyncFrame (s : IsolateBase) (next : Nat) : IsolateBase :=
  { s with asyncFrameStack := next :: s.asyncFrameStack }

/-- `IsolateBase::popAsyncFrame`:
`KJ_DASSERT(!asyncFrameStack.empty()); asyncFrameStack.pop_front();`.
The debug assertion fires (result `none`) when the stack is already empty;
otherwise the front element is removed. -/
def IsolateBase.popAsyncFrame (s : IsolateBase) : Option IsolateBase :=
  match s.asyncFrameStack with
  | [] => none
  | _ :: rest => some { s with asyncFrameStack := rest }

/-- `IsolateBase::getRootAsyncContext`: return the root frame when it
exists; otherwise `KJ_ASSERT(asyncFrameStack.empty())` and lazily allocate
the root frame. -/
def IsolateBase.getRootAsyncContext (s : IsolateBase) : Option (Nat × IsolateBase) :=
  match s.rootAsyncFrame with
  | some r => some (r, s)
  | none =>
    match s.asyncFrameStack with
    | [] => some (s.nextFrameId,
        { s with rootAsyncFrame := some s.nextFrameId, nextFrameId := s.nextFrameId + 1 })
    | _ :: _ => none

/-- `AsyncContextFrame::current`: when the stack is empty return
`getRootAsyncContext()`, otherwise the front of the stack. -/
def AsyncContextFrame.current (s : IsolateBase) : Option (Nat × IsolateBase) :=
  match s.asyncFrameStack with
  | [] => s.getRootAsyncContext
  | f :: _ => some (f, s)

/-- `AsyncContextFrame::isRoot`: `getRootAsyncContext() == this`. -/
def AsyncContextFrame.isRoot (s : IsolateBase) (f : Nat) : Option (Bool × IsolateBase) :=
  (s.getRootAsyncContext).map (fun p => (f == p.1, p.2))

/-- `AsyncContextFrame::get(StorageKey& key)`:
`KJ_ASSERT(!key.isDead())`, purge dead entries, look the key up.
Returns the looked-up value together with the purged storage, `none` when
the assertion fires. -/
def AsyncContextFrame.get (dead : Nat → Bool) (storage : Storage) (key : Nat) :
    Option (Option Nat × Storage) :=
  if dead key then none
  else
    let purged := Storage.eraseDead dead storage
    some (Storage.findVal purged key, purged)

/-- The storage-propagation step of the `AsyncContextFrame` constructor:
purge the parent's dead entries (a side effect on the parent), copy each
remaining entry (`entry.clone`) into the empty child storage, then `upsert`
the optional initial storage entry.  Returns (parent storage after the
purge, child storage). -/
def AsyncContextFrame.propagate (dead : Nat → Bool) (parent : Storage)
    (maybeStorageEntry : Option (Nat × Nat)) : Storage × Storage :=
  let parentPurged := Storage.eraseDead dead parent
  let child :=
    match maybeStorageEntry with
    | some entry => Storage.upsert parentPurged entry
    | none => parentPurged
  (parentPurged, child)

/-- `AsyncContextFrame::attachContext`: `KJ_DASSERT` that the promise is
not already tagged, then tag it with `AsyncContextFrame::current(js)`. -/
def AsyncContextFrame.attachContext (s : IsolateBase) (tag : Option Nat) :
    Option (Option Nat × IsolateBase) :=
  match tag with
  | some _ => none
  | none => (AsyncContextFrame.current s).map (fun p => (some p.1, p.2))

/-- V8 promise lifecycle states as far as the hook consults them
(`promise->State()`). -/
inductive PromiseState where
  | pending
  | fulfilled
  | rejected
deriving DecidableEq, BEq

/-- The four `v8::PromiseHookType` event kinds. -/
inductive PromiseHookType where
  | kInit
  | kBefore
  | kAfter
  | kResolve
deriving DecidableEq, BEq

/-- `IsolateBase::promiseHook` (the non-terminating-isolate path), acting
on the isolate state and on one promise's context tag (`tag`, the
ASYNC_RESOURCE private of the promise) given the promise's settlement
state.  Returns the promise's tag and the isolate state after the event,
or `none` when an assertion fires. -/
def IsolateBase.promiseHook (s : IsolateBase) (type : PromiseHookType)
    (tag : Option Nat) (state : PromiseState) : Option (Option Nat × IsolateBase) :=
  match AsyncContextFrame.current s with
  | none => none
  | some (currentFrame, s1) =>
    match type with
    | .kInit =>
      -- if (!currentFrame.isRoot(js)) \x7b DASSERT untagged; attachContext; \x7d
      match AsyncContextFrame.isRoot s1 currentFrame with
      | none => none
      | some (isRt, s2) =>
        if isRt then some (tag, s2)
        else AsyncContextFrame.attachContext s2 tag
    | .kBefore =>
      -- push the tagged frame when present, the root frame otherwise.
      match tag with
      | some f => some (tag, s1.pushAsyncFrame f)
      | none =>
        match s1.getRootAsyncContext with
        | none => none
        | some (r, s2) => some (tag, s2.pushAsyncFrame r)
    | .kAfter =>
      -- debug cross-check, unconditional pop, then erase the tag unless
      -- the promise settled rejected.
      let debugChecked : Option IsolateBase :=
        match tag with
        | some f => if f == currentFrame then some s1 else none
        | none =>
          match AsyncContextFrame.isRoot s1 currentFrame with
          | none => none
          | some (isRt, s2) => if isRt then some s2 else none
      match debugChecked with
      | none => none
      | some s2 =>
        match s2.popAsyncFrame with
        | none => none
        | some s3 =>
          if state == PromiseState.rejected then some (tag, s3) else some (none, s3)
    | .kResolve =>
      -- if (!currentFrame.isRoot(js) && isRejected() && untagged) attachContext;
      match AsyncContextFrame.isRoot s1 currentFrame with
      | none => none
      | some (isRt, s2) =>
        if !isRt && (state == PromiseState.rejected) && (tag == none) then
          AsyncContextFrame.attachContext s2 tag
        else some (tag, s2)

/-- The error message of the `JSG_REQUIRE` in `AsyncContextFrame::wrap`. -/
def doubleWrapMessage : String := "This function has already been associated with an async context."

/-- Script-visible errors thrown by this subsystem. -/
inductive JsError where
  | typeError (msg : String)
deriving DecidableEq

/-- `AsyncContextFrame::wrap(js, fn, ...)` acting on the function's
ASYNC_RESOURCE private (`fnTag`): when the function is already wrapped,
throw the `TypeError` before touching anything; otherwise associate the
function with the current frame.  Returns (outcome, function tag after the
call, isolate state after the call). -/
def AsyncContextFrame.wrap (s : IsolateBase) (fnTag : Option Nat) :
    Option (Except JsError Unit × Option Nat × IsolateBase) :=
  if fnTag.isSome then
    some (Except.error (JsError.typeError doubleWrapMessage), fnTag, s)
  else
    (AsyncContextFrame.current s).map (fun p => (Except.ok (), some p.1, p.2))

/-- A heap of frames: association list from frame id to that frame's
storage.  Used to state cross-frame isolation of per-frame storages. -/
abbrev FrameHeap := List (Nat × Storage)

/-- Storage of the frame with the given id, when present in the heap. -/
def FrameHeap.findStorage (h : FrameHeap) (fid : Nat) : Option Storage :=
  (h.find? (fun e => e.1 == fid)).map (fun e => e.2)

/-- Replace (or add) the storage of the frame with the given id. -/
def FrameHeap.setStorage : FrameHeap → Nat → Storage → FrameHeap
  | [], fid, st => [(fid, st)]
  | x :: xs, fid, st =>
    if x.1 == fid then (fid, st) :: xs else x :: FrameHeap.setStorage xs fid st

/-- Creation of a child frame `cid` from parent frame `pid`
(`AsyncContextFrame::AsyncContextFrame` with an explicit parent): the
parent's storage is purged of dead entries and its live entries are cloned
into the fresh child's storage, with the optional initial entry applied on
top. -/
def FrameHeap.createChild (dead : Nat → Bool) (h : FrameHeap) (pid cid : Nat)
    (maybeStorageEntry : Option (Nat × Nat)) : Option FrameHeap :=
  match h.findStorage pid with
  | none => none
  | some ps =>
    let pc := AsyncContextFrame.propagate dead ps maybeStorageEntry
    some ((h.setStorage pid pc.1).setStorage cid pc.2)

/-- Modelled from the spec: `ContextStorage::exchange` — "purges dead
entries first, then inserts/replaces/removes the entry for `key`,
returning what was there before".  The implementation of `exchange` is not
among the provided sources (the older `AsyncResource` header only declares
`Storage::exchange`), so the operation is taken from the spec's words. -/
def Storage.exchange (dead : Nat → Bool) (s : Storage) (k : Nat) (v : Option Nat) :
    Option Nat × Storage :=
  let purged := Storage.eraseDead dead s
  let prev := Storage.findVal purged k
  match v with
  | some newV => (prev, Storage.upsert purged (k, newV))
  | none => (prev, purged.filter (fun e => !(e.1 == k)))

/-- Mutate one frame's storage in the heap through `Storage.exchange`;
frames other than `fid` are untouched. -/
def FrameHeap.exchangeAt (dead : Nat → Bool) (h : FrameHeap) (fid k : Nat)
    (v : Option Nat) : FrameHeap :=
  match h.findStorage fid with
  | none => h
  | some st => h.setStorage fid (Storage.exchange dead st k v).2

/-! Helper lemmas about the list-level operations. -/

theorem findVal_cons (x : Nat × Nat) (xs : Storage) (k : Nat) :
    Storage.findVal (x :: xs) k =
      if x.1 == k then some x.2 else Storage.findVal xs k := by
  cases h : x.1 == k
  · rw [if_neg Bool.false_ne_true, Storage.findVal, Storage.findVal,
      List.find?_cons_of_neg]
    simp [h]
  · rw [if_pos rfl, Storage.findVal, List.find?_cons_of_pos, Option.map_some']
    simp [h]

theorem eraseDead_cons (dead : Nat → Bool) (x : Nat × Nat) (xs : Storage) :
    Storage.eraseDead dead (x :: xs) =
      if dead x.1 then Storage.eraseDead dead xs
      else x :: Storage.eraseDead dead xs := by
  cases h : dead x.1
  · rw [if_neg Bool.false_ne_true, Storage.eraseDead, Storage.eraseDead,
      List.filter_cons]
    simp [h]
  · rw [if_pos rfl, Storage.eraseDead, Storage.eraseDead, List.filter_cons]
    simp [h]

theorem upsert_cons (x : Nat × Nat) (xs : Storage) (e : Nat × Nat) :
    Storage.upsert (x :: xs) e =
      if x.1 == e.1 then (x.1, e.2) :: xs else x :: Storage.upsert xs e := rfl

theorem findStorage_cons (x : Nat × Storage) (xs : FrameHeap) (fid : Nat) :
    FrameHeap.findStorage (x :: xs) fid =
      if x.1 == fid then some x.2 else FrameHeap.findStorage xs fid := by
  cases h : x.1 == fid
  · rw [if_neg Bool.false_ne_true, FrameHeap.findStorage, FrameHeap.findStorage,
      List.find?_cons_of_neg]
    simp [h]
  · rw [if_pos rfl, FrameHeap.findStorage, List.find?_cons_of_pos, Option.map_some']
    simp [h]

theorem setStorage_cons (x : Nat × Storage) (xs : FrameHeap) (fid : Nat) (st : Storage) :
    FrameHeap.setStorage (x :: xs) fid st =
      if x.1 == fid then (fid, st) :: xs else x :: FrameHeap.setStorage xs fid st := rfl

theorem findVal_eraseDead_dead (dead : Nat → Bool) (s : Storage) (j : Nat)
    (hj : dead j = true) :
    Storage.findVal (Storage.eraseDead dead s) j = none := by
  induction s with
  | nil => rfl
  | cons x xs ih =>
    rw [eraseDead_cons]
    cases hd : dead x.1
    · rw [if_neg Bool.false_ne_true, findVal_cons]
      have hne : (x.1 == j) = false := by
        refine beq_eq_false_iff_ne.mpr ?_
        intro hx
        rw [hx, hj] at hd
        exact absurd hd (by decide)
      rw [hne, if_neg Bool.false_ne_true]
      exact ih
    · rw [if_pos rfl]
      exact ih

theorem mem_eraseDead_not_dead (dead : Nat → Bool) (s : Storage) (e : Nat × Nat)
    (he : e ∈ Storage.eraseDead dead s) : dead e.1 = false := by
  rw [Storage.eraseDead, List.mem_filter] at he
  simpa using he.2

theorem findVal_eraseDead_upsert (dead : Nat → Bool) (s : Storage) (k v : Nat)
    (hk : dead k = false) :
    Storage.findVal (Storage.eraseDead dead (Storage.upsert s (k, v))) k = some v := by
  induction s with
  | nil =>
    show Storage.findVal (Storage.eraseDead dead [(k, v)]) k = some v
    rw [eraseDead_cons]
    simp only [hk, if_neg Bool.false_ne_true]
    rw [findVal_cons]
    simp
  | cons x xs ih =>
    rw [upsert_cons]
    cases hx : x.1 == k
    · rw [if_neg Bool.false_ne_true, eraseDead_cons]
      cases hd : dead x.1
      · rw [if_neg Bool.false_ne_true, findVal_cons, hx, if_neg Bool.false_ne_true]
        exact ih
      · rw [if_pos rfl]
        exact ih
    · have hx1 : x.1 = k := by simpa using hx
      rw [if_pos rfl, eraseDead_cons]
      simp only [hx1, hk, if_neg Bool.false_ne_true]
      rw [findVal_cons]
      simp [hx1]

theorem findStorage_setStorage_self (h : FrameHeap) (fid : Nat) (st : Storage) :
    FrameHeap.findStorage (FrameHeap.setStorage h fid st) fid = some st := by
  induction h with
  | nil =>
    show FrameHeap.findStorage [(fid, st)] fid = some st
    rw [findStorage_cons]
    simp
  | cons x xs ih =>
    rw [setStorage_cons]
    cases hx : x.1 == fid
    · rw [if_neg Bool.false_ne_true, findStorage_cons, hx, if_neg Bool.false_ne_true]
      exact ih
    · rw [if_pos rfl, findStorage_cons]
      simp

theorem findStorage_setStorage_other (h : FrameHeap) (fid fid' : Nat) (st : Storage)
    (hne : fid ≠ fid') :
    FrameHeap.findStorage (FrameHeap.setStorage h fid st) fid' =
      FrameHeap.findStorage h fid' := by
  induction h with
  | nil =>
    show FrameHeap.findStorage [(fid, st)] fid' = FrameHeap.findStorage [] fid'
    rw [findStorage_cons]
    have : (fid == fid') = false := beq_eq_false_iff_ne.mpr hne
    rw [this, if_neg Bool.false_ne_true]
  | cons x xs ih =>
    rw [setStorage_cons]
    cases hx : x.1 == fid
    · rw [if_neg Bool.false_ne_true, findStorage_cons, findStorage_cons]
      cases hx' : x.1 == fid'
      · rw [if_neg Bool.false_ne_true, if_neg Bool.false_ne_true]
        exact ih
      · rw [if_pos rfl, if_pos rfl]
    · have hx1 : x.1 = fid := by simpa using hx
      rw [if_pos rfl, findStorage_cons, findStorage_cons]
      have h1 : (fid == fid') = false := beq_eq_false_iff_ne.mpr hne
      have h2 : (x.1 == fid') = false := by
        refine beq_eq_false_iff_ne.mpr ?_
        rw [hx1]
        exact hne
      rw [h1, h2, if_neg Bool.false_ne_true, if_neg Bool.false_ne_true]

/-! Helper lemmas about the isolate state. -/

theorem getRootAsyncContext_state (s : IsolateBase) (r : Nat) (s' : IsolateBase)
    (h : s.getRootAsyncContext = some (r, s')) :
    s'.asyncFrameStack = s.asyncFrameStack ∧ s'.rootAsyncFrame = some r ∧
      s'.getRootAsyncContext = some (r, s') := by
  obtain ⟨stk, rt, n⟩ := s
  cases rt with
  | some x =>
    simp only [IsolateBase.getRootAsyncContext, Option.some.injEq, Prod.mk.injEq] at h
    obtain ⟨h1, h2⟩ := h
    subst h1; subst h2
    simp [IsolateBase.getRootAsyncContext]
  | none =>
    cases stk with
    | nil =>
      simp only [IsolateBase.getRootAsyncContext, Option.some.injEq, Prod.mk.injEq] at h
      obtain ⟨h1, h2⟩ := h
      subst h1; subst h2
      simp [IsolateBase.getRootAsyncContext]
    | cons f rest =>
      simp [IsolateBase.getRootAsyncContext] at h

theorem current_state (s : IsolateBase) (f : Nat) (s' : IsolateBase)
    (h : AsyncContextFrame.current s = some (f, s')) :
    s'.asyncFrameStack = s.asyncFrameStack ∧
      AsyncContextFrame.current s' = some (f, s') := by
  obtain ⟨stk, rt, n⟩ := s
  cases stk with
  | nil =>
    simp only [AsyncContextFrame.current] at h
    obtain ⟨h1, h2, h3⟩ := getRootAsyncContext_state _ _ _ h
    refine ⟨h1, ?_⟩
    rw [AsyncContextFrame.current, h1]
    exact h3
  | cons g rest =>
    simp only [AsyncContextFrame.current, Option.some.injEq, Prod.mk.injEq] at h
    obtain ⟨h1, h2⟩ := h
    subst h1; subst h2
    simp [AsyncContextFrame.current]

theorem isRoot_current (s : IsolateBase) (f : Nat) (s1 : IsolateBase) (b : Bool)
    (s2 : IsolateBase)
    (hc : AsyncContextFrame.current s = some (f, s1))
    (hr : AsyncContextFrame.isRoot s1 f = some (b, s2)) :
    AsyncContextFrame.current s2 = some (f, s2) ∧
      s2.asyncFrameStack = s.asyncFrameStack := by
  obtain ⟨hstk1, hcur1⟩ := current_state s f s1 hc
  rw [AsyncContextFrame.isRoot] at hr
  cases hg : s1.getRootAsyncContext with
  | none => rw [hg] at hr; exact absurd hr (by simp)
  | some p =>
    obtain ⟨r, s3⟩ := p
    rw [hg, Option.map_some'] at hr
    simp only [Option.some.injEq, Prod.mk.injEq] at hr
    obtain ⟨hb, hs2⟩ := hr
    subst hs2
    obtain ⟨hstk2, hroot2, hg2⟩ := getRootAsyncContext_state s1 r s3 hg
    cases hstack : s1.asyncFrameStack with
    | nil =>
      simp only [AsyncContextFrame.current, hstack] at hcur1
      rw [hcur1] at hg
      simp only [Option.some.injEq, Prod.mk.injEq] at hg
      obtain ⟨h1, h2⟩ := hg
      subst h1
      subst h2
      constructor
      · simp only [AsyncContextFrame.current, hstack]
        exact hcur1
      · exact hstk1
    | cons g rest =>
      simp only [AsyncContextFrame.current, hstack, Option.some.injEq,
        Prod.mk.injEq, and_true] at hcur1
      subst hcur1
      constructor
      · simp only [AsyncContextFrame.current, hstk2, hstack]
      · rw [hstk2]
        exact hstk1

/-! Claim C1. -/

/-- C1 counterexample: a frame whose storage holds an entry for the dead
key 0; `get` called with the dead key itself trips the fatal assertion
`KJ_ASSERT(!key.isDead())` (result `none`) instead of returning absent. -/
theorem get_dead_key_asserts_cex :
    AsyncContextFrame.get (fun k => k == 0) [(0, 5)] 0 = none := rfl

/-- C1 (amended): on a frame whose storage holds entries for dead keys, a
`get` call with any live key succeeds (never traps), removes every
dead-key entry from the storage, and the purged storage answers absent for
every dead key; only a `get` whose own argument is a dead key trips the
fatal assertion. -/
theorem get_purges_dead_entries (dead : Nat → Bool) (s : Storage) (k : Nat)
    (hk : dead k = false) :
    AsyncContextFrame.get dead s k =
        some (Storage.findVal (Storage.eraseDead dead s) k, Storage.eraseDead dead s) ∧
      (∀ e ∈ Storage.eraseDead dead s, dead e.1 = false) ∧
      (∀ j, dead j = true → Storage.findVal (Storage.eraseDead dead s) j = none) := by
  refine ⟨?_, ?_, ?_⟩
  · rw [AsyncContextFrame.get, hk, if_neg Bool.false_ne_true]
  · intro e he
    exact mem_eraseDead_not_dead dead s e he
  · intro j hj
    exact findVal_eraseDead_dead dead s j hj

/-- C1 witness: key 0 is dead, key 1 is live; `get` with key 1 on a frame
holding entries for both succeeds and purges the dead entry. -/
theorem get_purges_dead_entries_w :
    AsyncContextFrame.get (fun j => j == 0) [(0, 5), (1, 7)] 1 =
        some (Storage.findVal (Storage.eraseDead (fun j => j == 0) [(0, 5), (1, 7)]) 1,
          Storage.eraseDead (fun j => j == 0) [(0, 5), (1, 7)]) ∧
      Storage.findVal (Storage.eraseDead (fun j => j == 0) [(0, 5), (1, 7)]) 0 = none :=
  ⟨(get_purges_dead_entries (fun j => j == 0) [(0, 5), (1, 7)] 1 (by decide)).1,
   (get_purges_dead_entries (fun j => j == 0) [(0, 5), (1, 7)] 1 (by decide)).2.2 0 (by decide)⟩

/-! Claim C2. -/

/-- C2 counterexample: with the stack holding exactly one frame (the root
frame 0), `popAsyncFrame` succeeds without tripping the assertion and
leaves the stack empty. -/
theorem popAsyncFrame_singleton_cex :
    IsolateBase.popAsyncFrame ⟨[0], some 0, 1⟩ = some ⟨[], some 0, 1⟩ := rfl

/-- C2 (amended): `popAsyncFrame` trips its fatal (debug) assertion
exactly when the stack is already empty; popping from any non-empty
stack, a singleton included, succeeds and removes the front element, so a
successful pop may leave the stack empty (in this design the root frame is
not kept at the bottom of the stack). -/
theorem popAsyncFrame_asserts_iff_empty (s : IsolateBase) :
    (s.popAsyncFrame = none ↔ s.asyncFrameStack = []) ∧
      ∀ f rest, s.asyncFrameStack = f :: rest →
        s.popAsyncFrame = some { s with asyncFrameStack := rest } := by
  obtain ⟨stk, rt, n⟩ := s
  cases stk with
  | nil => simp [IsolateBase.popAsyncFrame]
  | cons g tl =>
    constructor
    · simp [IsolateBase.popAsyncFrame]
    · intro f rest h
      rw [List.cons.injEq] at h
      obtain ⟨h1, h2⟩ := h
      subst h1; subst h2
      rfl

/-- C2 witness: popping from a two-element stack removes the front. -/
theorem popAsyncFrame_asserts_iff_empty_w :
    IsolateBase.popAsyncFrame ⟨[3, 0], some 0, 1⟩ = some ⟨[0], some 0, 1⟩ :=
  (popAsyncFrame_asserts_iff_empty ⟨[3, 0], some 0, 1⟩).2 3 [0] rfl

/-! Claim C3. -/

/-- C3 counterexample: calling `current` before initialization (empty
stack, no root frame yet) does not trip an assertion; it lazily creates
the root frame and returns it. -/
theorem current_uninitialized_cex :
    AsyncContextFrame.current ⟨[], none, 0⟩ = some (0, ⟨[], some 0, 1⟩) := rfl

/-- C3 (amended): `current` never trips an assertion: on a non-empty
stack it returns the frame at the front of the stack, and on an empty
stack it returns the root frame, lazily creating it when needed. -/
theorem current_returns_top_or_root (s : IsolateBase) :
    (s.asyncFrameStack = [] ∧ ∃ r s', AsyncContextFrame.current s = some (r, s') ∧
        s'.rootAsyncFrame = some r ∧ s'.asyncFrameStack = []) ∨
      (∃ f rest, s.asyncFrameStack = f :: rest ∧
        AsyncContextFrame.current s = some (f, s)) := by
  obtain ⟨stk, rt, n⟩ := s
  cases stk with
  | nil =>
    left
    cases rt with
    | some r => exact ⟨rfl, r, ⟨[], some r, n⟩, rfl, rfl, rfl⟩
    | none => exact ⟨rfl, n, ⟨[], some n, n + 1⟩, rfl, rfl, rfl⟩
  | cons f rest =>
    right
    exact ⟨f, rest, rfl, rfl⟩

/-! Claim C8. -/

/-- C8: creating a child frame from a parent whose storage holds key K
with value V1, with an explicit storage-entry override (K, V2), yields a
child whose `get(K)` answers V2: the override is applied after the
inherited copy and replaces the inherited value. -/
theorem child_override_wins (dead : Nat → Bool) (p : Storage) (K V1 V2 : Nat)
    (hK : dead K = false) (hheld : Storage.findVal p K = some V1) :
    AsyncContextFrame.get dead ((AsyncContextFrame.propagate dead p (some (K, V2))).2) K =
      some (some V2,
        Storage.eraseDead dead ((AsyncContextFrame.propagate dead p (some (K, V2))).2)) := by
  show AsyncContextFrame.get dead (Storage.upsert (Storage.eraseDead dead p) (K, V2)) K = _
  rw [AsyncContextFrame.get, hK, if_neg Bool.false_ne_true]
  simp only [findVal_eraseDead_upsert dead (Storage.eraseDead dead p) K V2 hK]
  rfl

/-- C8 witness: no dead keys, parent holds K=2 with value 10, override
(2, 20); the child answers 20 for key 2. -/
theorem child_override_wins_w :
    AsyncContextFrame.get (fun _ => false)
        ((AsyncContextFrame.propagate (fun _ => false) [(2, 10)] (some (2, 20))).2) 2 =
      some (some 20, Storage.eraseDead (fun _ => false)
        ((AsyncContextFrame.propagate (fun _ => false) [(2, 10)] (some (2, 20))).2)) :=
  child_override_wins (fun _ => false) [(2, 10)] 2 10 20 rfl rfl

/-! Claim C10. -/

/-- C10: `AsyncContextFrame::wrap` on a function that already carries the
async-resource association throws the catchable TypeError with message
"This function has already been associated with an async context.",
leaving both the frame stack (the whole isolate state) and the existing
association unchanged. -/
theorem wrap_double_throws_typeError (s : IsolateBase) (f : Nat) :
    AsyncContextFrame.wrap s (some f) =
      some (Except.error (JsError.typeError doubleWrapMessage), some f, s) := rfl

/-! Claim C4. -/

/-- C4: on a kInit promise-hook event for a not-already-tagged promise,
the promise is left untagged when the current frame is the root, and is
tagged with exactly the current frame otherwise. -/
theorem promiseHook_kInit_tags_nonroot (s : IsolateBase) (ps : PromiseState)
    (cur : Nat) (s1 : IsolateBase) (b : Bool) (s2 : IsolateBase)
    (tag' : Option Nat) (s' : IsolateBase)
    (hc : AsyncContextFrame.current s = some (cur, s1))
    (hr : AsyncContextFrame.isRoot s1 cur = some (b, s2))
    (hh : IsolateBase.promiseHook s PromiseHookType.kInit none ps = some (tag', s')) :
    tag' = if b then none else some cur := by
  simp only [IsolateBase.promiseHook, hc, hr] at hh
  cases b with
  | true =>
    rw [if_pos rfl] at hh
    simp only [Option.some.injEq, Prod.mk.injEq] at hh
    rw [if_pos rfl]
    exact hh.1.symm
  | false =>
    rw [if_neg Bool.false_ne_true] at hh
    obtain ⟨hcur2, _⟩ := isRoot_current s cur s1 false s2 hc hr
    simp only [AsyncContextFrame.attachContext, hcur2, Option.map_some',
      Option.some.injEq, Prod.mk.injEq] at hh
    rw [if_neg Bool.false_ne_true]
    exact hh.1.symm

/-- C4 witness: stack top is frame 5, the root is frame 0; kInit tags the
promise with frame 5. -/
theorem promiseHook_kInit_tags_nonroot_w :
    (some 5 : Option Nat) = if (false : Bool) then none else some 5 :=
  promiseHook_kInit_tags_nonroot ⟨[5], some 0, 1⟩ PromiseState.pending 5
    ⟨[5], some 0, 1⟩ false ⟨[5], some 0, 1⟩ (some 5) ⟨[5], some 0, 1⟩ rfl rfl rfl

/-! Claim C5. -/

/-- C5: every successful kBefore promise-hook event pushes exactly one
frame onto the stack — the promise's tagged frame when a tag is present
and the root frame when no tag is present — so the stack depth grows by
exactly one. -/
theorem promiseHook_kBefore_pushes_one (s : IsolateBase) (tag : Option Nat)
    (ps : PromiseState) (tag' : Option Nat) (s' : IsolateBase)
    (hh : IsolateBase.promiseHook s PromiseHookType.kBefore tag ps = some (tag', s')) :
    s'.asyncFrameStack.length = s.asyncFrameStack.length + 1 ∧
      (∀ f, tag = some f → s'.asyncFrameStack.head? = some f) ∧
      (tag = none → s'.asyncFrameStack.head? = s'.rootAsyncFrame) := by
  cases hc : AsyncContextFrame.current s with
  | none =>
    simp only [IsolateBase.promiseHook, hc] at hh
    exact Option.noConfusion hh
  | some p =>
    obtain ⟨cur, s1⟩ := p
    obtain ⟨hstk1, _⟩ := current_state s cur s1 hc
    simp only [IsolateBase.promiseHook, hc] at hh
    cases tag with
    | some f =>
      simp only [Option.some.injEq, Prod.mk.injEq] at hh
      obtain ⟨h1, h2⟩ := hh
      subst h2
      refine ⟨?_, ?_, ?_⟩
      · simp [IsolateBase.pushAsyncFrame, hstk1]
      · intro g hg
        simp only [Option.some.injEq] at hg
        subst hg
        simp [IsolateBase.pushAsyncFrame]
      · intro hnone
        exact absurd hnone (by simp)
    | none =>
      cases hg : s1.getRootAsyncContext with
      | none =>
        rw [hg] at hh
        exact Option.noConfusion hh
      | some q =>
        obtain ⟨r, s2⟩ := q
        rw [hg] at hh
        simp only [Option.some.injEq, Prod.mk.injEq] at hh
        obtain ⟨h1, h2⟩ := hh
        subst h2
        obtain ⟨hstk2, hroot2, _⟩ := getRootAsyncContext_state s1 r s2 hg
        refine ⟨?_, ?_, ?_⟩
        · simp [IsolateBase.pushAsyncFrame, hstk2, hstk1]
        · intro g hg2
          exact absurd hg2 (by simp)
        · intro _
          simp [IsolateBase.pushAsyncFrame, hroot2]

/-- C5 witness: an untagged promise on an isolate with an empty stack and
root frame 0; kBefore pushes the root, growing the stack from 0 to 1, and
the new top is the root frame. -/
theorem promiseHook_kBefore_pushes_one_w :
    (⟨[0], some 0, 1⟩ : IsolateBase).asyncFrameStack.length =
        (⟨[], some 0, 1⟩ : IsolateBase).asyncFrameStack.length + 1 ∧
      (⟨[0], some 0, 1⟩ : IsolateBase).asyncFrameStack.head? =
        (⟨[0], some 0, 1⟩ : IsolateBase).rootAsyncFrame := by
  have H := promiseHook_kBefore_pushes_one ⟨[], some 0, 1⟩ none PromiseState.pending
    none ⟨[0], some 0, 1⟩ rfl
  exact ⟨H.1, H.2.2 rfl⟩

/-! Claim C6. -/

/-- C6: after a successful kAfter promise-hook event the promise's tag is
retained exactly when the promise settled rejected, and is erased when it
settled in any other (fulfilled) state. -/
theorem promiseHook_kAfter_tag_retention (s : IsolateBase) (tag tag' : Option Nat)
    (ps : PromiseState) (s' : IsolateBase)
    (hh : IsolateBase.promiseHook s PromiseHookType.kAfter tag ps = some (tag', s')) :
    tag' = if ps == PromiseState.rejected then tag else none := by
  simp only [IsolateBase.promiseHook] at hh
  repeat' split at hh
  all_goals simp_all

/-- C6 witness: a promise tagged with frame 7 (the current frame): after
kAfter it keeps the tag when it settled rejected and loses it when it
settled fulfilled. -/
theorem promiseHook_kAfter_tag_retention_w :
    ((some 7 : Option Nat) =
        if PromiseState.rejected == PromiseState.rejected then some 7 else none) ∧
      ((none : Option Nat) =
        if PromiseState.fulfilled == PromiseState.rejected then some 7 else none) :=
  ⟨promiseHook_kAfter_tag_retention ⟨[7], some 0, 1⟩ (some 7) (some 7)
      PromiseState.rejected ⟨[], some 0, 1⟩ rfl,
   promiseHook_kAfter_tag_retention ⟨[7], some 0, 1⟩ (some 7) none
      PromiseState.fulfilled ⟨[], some 0, 1⟩ rfl⟩

/-! Claim C7. -/

/-- C7: a kResolve promise-hook event tags the promise with the current
frame exactly when the current frame is not the root, the promise is
rejected, and the promise is not already tagged; in every other case the
tag is left unchanged. -/
theorem promiseHook_kResolve_tags_iff (s : IsolateBase) (tag : Option Nat)
    (ps : PromiseState) (cur : Nat) (s1 : IsolateBase) (b : Bool) (s2 : IsolateBase)
    (tag' : Option Nat) (s' : IsolateBase)
    (hc : AsyncContextFrame.current s = some (cur, s1))
    (hr : AsyncContextFrame.isRoot s1 cur = some (b, s2))
    (hh : IsolateBase.promiseHook s PromiseHookType.kResolve tag ps = some (tag', s')) :
    tag' = if !b && (ps == PromiseState.rejected) && (tag == none)
      then some cur else tag := by
  simp only [IsolateBase.promiseHook, hc, hr] at hh
  cases hcond : (!b && (ps == PromiseState.rejected) && (tag == none)) with
  | false =>
    rw [hcond, if_neg Bool.false_ne_true] at hh
    simp only [Option.some.injEq, Prod.mk.injEq] at hh
    rw [if_neg Bool.false_ne_true]
    exact hh.1.symm
  | true =>
    rw [hcond, if_pos rfl] at hh
    have hcond' := hcond
    rw [Bool.and_eq_true, Bool.and_eq_true] at hcond'
    obtain ⟨⟨hb', hps'⟩, htag'⟩ := hcond'
    have htag : tag = none := by simpa using htag'
    subst htag
    obtain ⟨hcur2, _⟩ := isRoot_current s cur s1 b s2 hc hr
    simp only [AsyncContextFrame.attachContext, hcur2, Option.map_some',
      Option.some.injEq, Prod.mk.injEq] at hh
    rw [if_pos rfl]
    exact hh.1.symm

/-- C7 witness: current frame 5 is not the root (frame 0), the promise is
rejected and untagged; kResolve tags it with frame 5. -/
theorem promiseHook_kResolve_tags_iff_w :
    (some 5 : Option Nat) =
      if !false && (PromiseState.rejected == PromiseState.rejected) &&
          ((none : Option Nat) == none) then some 5 else none :=
  promiseHook_kResolve_tags_iff ⟨[5], some 0, 1⟩ none PromiseState.rejected 5
    ⟨[5], some 0, 1⟩ false ⟨[5], some 0, 1⟩ (some 5) ⟨[5], some 0, 1⟩ rfl rfl rfl

/-! Claim C9. -/

/-- C9: a child frame created from a parent snapshots the parent's live
entries at creation time, and afterwards mutating the parent's storage
(through `exchange`) leaves the child's storage unchanged and vice versa. -/
theorem child_snapshot_isolation (dead : Nat → Bool) (h : FrameHeap) (pid cid : Nat)
    (ps : Storage) (h' : FrameHeap)
    (hne : pid ≠ cid)
    (hp : h.findStorage pid = some ps)
    (hcreate : FrameHeap.createChild dead h pid cid none = some h') :
    h'.findStorage cid = some (Storage.eraseDead dead ps) ∧
      (∀ k v, (FrameHeap.exchangeAt dead h' pid k v).findStorage cid =
        h'.findStorage cid) ∧
      (∀ k v, (FrameHeap.exchangeAt dead h' cid k v).findStorage pid =
        h'.findStorage pid) := by
  simp only [FrameHeap.createChild, hp, AsyncContextFrame.propagate,
    Option.some.injEq] at hcreate
  subst hcreate
  refine ⟨?_, ?_, ?_⟩
  · exact findStorage_setStorage_self _ cid (Storage.eraseDead dead ps)
  · intro k v
    rw [FrameHeap.exchangeAt]
    cases hf : FrameHeap.findStorage
        ((h.setStorage pid (Storage.eraseDead dead ps)).setStorage cid
          (Storage.eraseDead dead ps)) pid with
    | none => rfl
    | some st => exact findStorage_setStorage_other _ pid cid _ hne
  · intro k v
    rw [FrameHeap.exchangeAt]
    cases hf : FrameHeap.findStorage
        ((h.setStorage pid (Storage.eraseDead dead ps)).setStorage cid
          (Storage.eraseDead dead ps)) cid with
    | none => rfl
    | some st => exact findStorage_setStorage_other _ cid pid _ (Ne.symm hne)

/-- C9 witness: parent frame 0 holds key 1 with value 5 and no key is
dead; the created child frame 1 snapshots the entry, and an exchange on
either frame leaves the other frame's storage unchanged. -/
theorem child_snapshot_isolation_w :
    FrameHeap.findStorage [(0, [(1, 5)]), (1, [(1, 5)])] 1 =
        some (Storage.eraseDead (fun _ => false) [(1, 5)]) ∧
      (FrameHeap.exchangeAt (fun _ => false) [(0, [(1, 5)]), (1, [(1, 5)])] 0 1
          (some 9)).findStorage 1 =
        FrameHeap.findStorage [(0, [(1, 5)]), (1, [(1, 5)])] 1 ∧
      (FrameHeap.exchangeAt (fun _ => false) [(0, [(1, 5)]), (1, [(1, 5)])] 1 1
          none).findStorage 0 =
        FrameHeap.findStorage [(0, [(1, 5)]), (1, [(1, 5)])] 0 := by
  have H := child_snapshot_isolation (fun _ => false) [(0, [(1, 5)])] 0 1 [(1, 5)]
    [(0, [(1, 5)]), (1, [(1, 5)])] (by decide) rfl rfl
  exact ⟨H.1, H.2.1 1 (some 9), H.2.2 1 none⟩
